import Mathlib

/-!
# Verification of the scroll-restoration cache and navigation state machine

Shallow embedding of `src/packages/scroll-restoration/src/scroll-restoration.ts`
and its helpers (`helpers.ts`, shipped here as `src/unnamed/part_001`).

Modelling choices:
* JavaScript strings are embedded as `List Char` (`JsString`).
* JavaScript numbers that can be `NaN` are embedded as `JsNum`
  (`nan` models `NaN`, `num n` an ordinary number; scroll offsets are
  modelled as integers).
* JavaScript objects used as string-keyed maps (`cached` / `next`) are
  embedded as insertion-ordered association lists (`EntryMap`): `for‑in`
  iterates keys in insertion order for the non-numeric keys used here,
  property assignment overwrites in place, `delete` removes the key.
* Browser effects (`window.scrollTo`, assignments to an element's
  `scrollLeft`/`scrollTop`) are recorded in an explicit `Effect` trace;
  the live environment (`window.scrollX/Y`, `document.querySelector`)
  is a read-only parameter `Env`.
-/

set_option autoImplicit false

/-- JavaScript strings, embedded as lists of characters. -/
abbrev JsString := List Char

/-- A JavaScript number that may be `NaN` (scroll offsets are modelled as
integers; the code only ever compares, copies and stores them). -/
inductive JsNum where
  | nan
  | num (n : Int)
  deriving DecidableEq

/-- `x || 0` on a JavaScript number: `NaN` (and `0` itself) coerce to `0`. -/
def jsOr0 : JsNum → JsNum
  | JsNum.nan => JsNum.num 0
  | JsNum.num n => JsNum.num n

/-- `ScrollEntry`: the `{ scrollX, scrollY }` record stored in the cache
(`shapes.ts`, `CacheValue`).  The scroll tracker inserts the placeholder
`{ scrollX: NaN, scrollY: NaN }`, hence the `JsNum` fields. -/
structure ScrollEntry where
  scrollX : JsNum
  scrollY : JsNum
  deriving DecidableEq

/-- A string-keyed JavaScript object holding `ScrollEntry` values,
embedded as an insertion-ordered association list. -/
abbrev EntryMap := List (JsString × ScrollEntry)

/-- Property read `m[k]`: the first (and, for genuine JS objects, only)
binding of `k`, or `undefined` (`none`). -/
def lookupEntry (k : JsString) : EntryMap → Option ScrollEntry
  | [] => none
  | p :: m => if p.1 = k then some p.2 else lookupEntry k m

/-- `k in m`: whether the object has the property. -/
def containsKeyB (k : JsString) : EntryMap → Bool
  | [] => false
  | p :: m => if p.1 = k then true else containsKeyB k m

/-- Overwrite the binding of an existing key, keeping its position. -/
def replaceEntry (k : JsString) (v : ScrollEntry) : EntryMap → EntryMap
  | [] => []
  | p :: m => if p.1 = k then (k, v) :: replaceEntry k v m else p :: replaceEntry k v m

/-- Property write `{ ...m, [k]: v }` / `m[k] = v`: overwrite in place if the
key exists, otherwise append (JS objects keep insertion order). -/
def insertEntry (k : JsString) (v : ScrollEntry) (m : EntryMap) : EntryMap :=
  if containsKeyB k m then replaceEntry k v m else m ++ [(k, v)]

/-- `delete m[k]`. -/
def eraseEntry (k : JsString) : EntryMap → EntryMap
  | [] => []
  | p :: m => if p.1 = k then eraseEntry k m else p :: eraseEntry k m

/-- The key list of a map, in iteration (insertion) order: the keys a
`for (const k in m)` loop visits. -/
def keysOf (m : EntryMap) : List JsString :=
  m.map Prod.fst

/-- `CacheState` from `shapes.ts`: committed (`cached`) and pending (`next`)
offsets. -/
structure CacheState where
  cached : EntryMap
  next : EntryMap
  deriving DecidableEq

/-- The default empty state. -/
def emptyState : CacheState := { cached := [], next := [] }

/-- Modelled from the spec: `constants.ts` is imported by
`scroll-restoration.ts` but is not among the shipped sources.  The spec
fixes the delimiter as a triple-underscore-like token, and the repository's
tests build composite keys as `locationKey + "___" + selector`. -/
def delimiter : JsString := ['_', '_', '_']

/-- Modelled from the spec: the sentinel selector naming the window; the
repository's tests use the composite key suffix `___window`. -/
def windowKey : JsString := "window".data

/-- `[locationKey, elementSelector].join(delimiter)`. -/
def compositeKey (locationKey elementSelector : JsString) : JsString :=
  locationKey ++ delimiter ++ elementSelector

/-- Prepend a character to the first segment of a split result (the
"current segment grows to the left" step of the scan). -/
def consHead (c : Char) : List JsString → List JsString
  | [] => [[c]]
  | p :: ps => (c :: p) :: ps

/-- `s.split(delimiter)` for the fixed three-underscore delimiter, with
JavaScript `String.prototype.split` semantics for a non-empty separator:
scan left to right, cut at each leftmost, non-overlapping occurrence. -/
def splitOnDelim : JsString → List JsString
  | '_' :: '_' :: '_' :: rest => [] :: splitOnDelim rest
  | c :: rest => consHead c (splitOnDelim rest)
  | [] => [[]]

/-- Whether the three-underscore delimiter occurs as a substring
(mirroring the scan of `splitOnDelim`). -/
def containsDelim : JsString → Bool
  | '_' :: '_' :: '_' :: _ => true
  | _ :: rest => containsDelim rest
  | [] => false

/-- The scroll offsets of an element, as read from `scrollLeft`/`scrollTop`. -/
structure ElemScroll where
  scrollLeft : JsNum
  scrollTop : JsNum
  deriving DecidableEq

/-- The read-only browser environment a save/restore runs against:
the global window offsets and `document.querySelector`. -/
structure Env where
  windowScrollX : JsNum
  windowScrollY : JsNum
  query : JsString → Option ElemScroll

/-- `ScrollToOptions.behavior`. -/
inductive ScrollBehavior where
  | auto
  | smooth
  | instant
  deriving DecidableEq

/-- Observable browser side effects of a restore. -/
inductive Effect where
  /-- `window.scrollTo` — either the options form (with `left`, `top` and a
  possibly-undefined `behavior`) or the positional form `scrollTo(x, y)`
  (modelled with `behavior := none`). -/
  | windowScrollTo (left top : JsNum) (behavior : Option ScrollBehavior)
  /-- Assignments `element.scrollLeft = ...; element.scrollTop = ...` on the
  element found by `document.querySelector(selector)`. -/
  | elemScrollSet (selector : JsString) (scrollLeft scrollTop : JsNum)
  deriving DecidableEq

/-- The entry committed for `elementSelector` by one iteration of the save
loop, given the pending entry `entry` found in `next`
(`scroll-restoration.ts` lines 181–191): the window sentinel reads the
global offsets, any other non-empty selector reads the element found by
`document.querySelector` (defaulting to `0` when absent), and an empty
selector matches neither branch, so its pending entry is committed
unchanged. -/
def liveEntry (env : Env) (elementSelector : JsString) (entry : ScrollEntry) :
    ScrollEntry :=
  if elementSelector = windowKey then
    { scrollX := jsOr0 env.windowScrollX, scrollY := jsOr0 env.windowScrollY }
  else if elementSelector ≠ [] then
    match env.query elementSelector with
    | some el => { scrollX := jsOr0 el.scrollLeft, scrollY := jsOr0 el.scrollTop }
    | none => { scrollX := JsNum.num 0, scrollY := JsNum.num 0 }
  else entry

/-- One iteration of the save loop body for `elementSelector`
(`scroll-restoration.ts` lines 181–206): read the pending entry, fill in
its live offsets, then `cache.set` removes the selector from `next` and
writes the entry into `cached` under the composite key.  The `entry!`
dereference never fails on the keys the loop visits; a missing key is
modelled as a no-op. -/
def saveStep (env : Env) (locationKey : JsString) (st : CacheState)
    (elementSelector : JsString) : CacheState :=
  match lookupEntry elementSelector st.next with
  | none => st
  | some entry =>
    { next := eraseEntry elementSelector st.next,
      cached := insertEntry (compositeKey locationKey elementSelector)
        (liveEntry env elementSelector entry) st.cached }

/-- `saveScrollPositions` (`scroll-restoration.ts` lines 175–209): iterate
over the keys of `cache.state.next` as captured when the `for‑in` loop
starts (each iteration's `cache.set` replaces `cache.state`, but the loop
keeps walking the original object's keys), committing each pending
selector. -/
def saveScrollPositions (env : Env) (locationKey : JsString) (s : CacheState) :
    CacheState :=
  (keysOf s.next).foldl (saveStep env locationKey) s

/-- One iteration of the restore loop (`scroll-restoration.ts` lines
219–239) over accumulated `(effects, windowRestored)`:
`const [key, elementSelector] = cacheKey.split(delimiter)`; entries whose
key part equals the current location key are applied — the window sentinel
via `window.scrollTo({ top, left, behavior })` (setting `windowRestored`),
any other truthy (non-empty) selector by assigning the found element's
offsets, silently skipped when `document.querySelector` finds nothing. -/
def restoreStep (env : Env) (locationKey : JsString)
    (behavior : Option ScrollBehavior) (acc : List Effect × Bool)
    (p : JsString × ScrollEntry) : List Effect × Bool :=
  match splitOnDelim p.1 with
  | [] => acc
  | key :: restParts =>
    if key = locationKey then
      if restParts.head? = some windowKey then
        (acc.1 ++ [Effect.windowScrollTo p.2.scrollX p.2.scrollY behavior], true)
      else
        match restParts.head? with
        | some sel =>
          if sel = [] then acc
          else
            match env.query sel with
            | some _ => (acc.1 ++ [Effect.elemScrollSet sel p.2.scrollX p.2.scrollY], acc.2)
            | none => acc
        | none => acc
    else acc

/-- `restoreScrollPositions` (`scroll-restoration.ts` lines 212–249): scan
all `cached` entries applying the ones for the current location key; if no
window entry was applied, `window.scrollTo(0, 0)`; finally
`cache.set(c => ({ ...c, next: {} }))` clears the pending map (the
committed map is untouched).  Returns the new cache state and the ordered
trace of scroll effects. -/
def restoreScrollPositions (env : Env) (locationKey : JsString)
    (behavior : Option ScrollBehavior) (s : CacheState) :
    CacheState × List Effect :=
  let r := s.cached.foldl (restoreStep env locationKey behavior) ([], false)
  let effects := if r.2 then r.1
    else r.1 ++ [Effect.windowScrollTo (JsNum.num 0) (JsNum.num 0) none]
  ({ cached := s.cached, next := [] }, effects)

/-- `Location` from `shapes.ts`.  `stateKey` models `state?.key`: `none`
when `state` is absent or has no `key`. -/
structure Location where
  href : JsString
  pathname : JsString
  search : JsString
  hash : JsString
  stateKey : Option JsString := none
  deriving DecidableEq

/-- `defaultGetKey`: `location.state?.key || location.href` (an empty-string
key is falsy and also falls back to the href). -/
def defaultGetKey (loc : Location) : JsString :=
  match loc.stateKey with
  | some k => if k = [] then loc.href else k
  | none => loc.href

/-- The selector derived from a `data-scroll-restoration-id` attribute:
`` `[data-scroll-restoration-id="${id}"]` ``. -/
def attrSelector (id : JsString) : JsString :=
  "[data-scroll-restoration-id=\"".data ++ id ++ "\"]".data

/-- The mutable state of one mounted `useScrollRestoration` instance plus
its default navigation listener: the listener's `lastLocation` closure
variable, the hook's `locationRef`, the module-level `cache.state`, and
`weakScrolledElements` (modelled as the set of object identities of the
event targets seen this cycle). -/
structure NavState where
  lastLocation : Location
  locationRef : Location
  cache : CacheState
  dirty : List Nat
  deriving DecidableEq

/-- Ordered trace of the observable steps of `checkForUrlChange`
(`scroll-restoration.ts` lines 86–102) and `handleNavigation`
(lines 252–262). -/
inductive TraceEv where
  /-- `saveCurrentScrollPositions()` dispatched the save event, whose
  handler ran synchronously and saved under the recorded location key. -/
  | saveRequested (savedUnder : JsString)
  /-- `lastLocation = currentLocation`. -/
  | lastLocationSet (l : Location)
  /-- `onNavigate(prevLocation)` was invoked. -/
  | navigateCbInvoked (prev : Location)
  /-- `handleNavigation` scheduled the two-animation-frame deferred
  restore for the given (new) location. -/
  | restoreScheduled (l : Location)
  deriving DecidableEq

/-- The navigation-change test of `checkForUrlChange`: any difference in
pathname, search or hash. -/
def locationChanged (current last : Location) : Bool :=
  decide (current.pathname ≠ last.pathname ∨ current.search ≠ last.search ∨
    current.hash ≠ last.hash)

/-- The `SCROLL_SAVE_EVENT` handler `handleScrollSave` (lines 307–309):
`saveScrollPositions(locationRef.current)`.  `window.dispatchEvent` runs
handlers synchronously, so `saveCurrentScrollPositions()` is modelled as a
direct call. -/
def handleScrollSave (env : Env) (getKey : Location → JsString)
    (s : NavState) : NavState :=
  { s with cache := saveScrollPositions env (getKey s.locationRef) s.cache }

/-- `handleNavigation` (lines 252–262): update `locationRef` to the freshly
read current location, then schedule the restore two animation frames
later.  The scheduling itself is recorded as a trace event. -/
def handleNavigation (current : Location) (s : NavState) :
    NavState × List TraceEv :=
  ({ s with locationRef := current }, [TraceEv.restoreScheduled current])

/-- `checkForUrlChange` (lines 86–102), given the freshly read current
location: when pathname/search/hash changed, (1) dispatch the save event —
its handler saves under the key of the still-untouched `locationRef` —
(2) update `lastLocation`, (3) invoke `onNavigate(prevLocation)`, i.e.
`handleNavigation`, which re-reads the current location and schedules the
restore.  Returns the new state and the ordered event trace. -/
def checkForUrlChange (env : Env) (getKey : Location → JsString)
    (current : Location) (s : NavState) : NavState × List TraceEv :=
  if locationChanged current s.lastLocation then
    let prev := s.lastLocation
    let s1 := handleScrollSave env getKey s
    let s2 := { s1 with lastLocation := current }
    let r3 := handleNavigation current s2
    (r3.1, TraceEv.saveRequested (getKey s.locationRef) ::
      TraceEv.lastLocationSet current :: TraceEv.navigateCbInvoked prev :: r3.2)
  else (s, [])

/-- The `SCROLL_RESTORE_EVENT` handler / deferred restore (lines 311–315,
257–261): `restoreScrollPositions(locationRef.current)` followed by the
reset `weakScrolledElements = new WeakSet()` inside the restore body. -/
def handleScrollRestore (env : Env) (getKey : Location → JsString)
    (behavior : Option ScrollBehavior) (s : NavState) : NavState × List Effect :=
  let r := restoreScrollPositions env (getKey s.locationRef) behavior s.cache
  ({ s with cache := r.1, dirty := [] }, r.2)

/-- A scroll-event target as seen by the `onScroll` listener:
its object identity (for the weak set), whether it is the window or the
document, its `data-scroll-restoration-id` attribute (if any; `null` or
`""` are falsy) and its computed CSS selector. -/
structure ScrollTarget where
  targetId : Nat
  isWindowOrDocument : Bool
  attrId : Option JsString
  cssSelector : JsString

/-- The capturing `scroll` listener `onScroll` (lines 273–304): skip
targets already seen this cycle, resolve the selector (window sentinel,
attribute selector, or computed CSS selector) and insert the
`{ scrollX: NaN, scrollY: NaN }` placeholder into `next` if the selector
is not already pending. -/
def onScroll (s : NavState) (t : ScrollTarget) : NavState :=
  if t.targetId ∈ s.dirty then s
  else
    let s' : NavState := { s with dirty := t.targetId :: s.dirty }
    let elementSelector : JsString :=
      if t.isWindowOrDocument then windowKey
      else
        match t.attrId with
        | some a => if a = [] then t.cssSelector else attrSelector a
        | none => t.cssSelector
    match lookupEntry elementSelector s'.cache.next with
    | some _ => s'
    | none =>
      let placeholder : ScrollEntry := { scrollX := JsNum.nan, scrollY := JsNum.nan }
      let newNext := insertEntry elementSelector placeholder s'.cache.next
      { s' with cache := { s'.cache with next := newNext } }

/-- A concrete environment whose window offsets are `(100, 200)` and whose
document contains no queryable elements. -/
def envA : Env :=
  { windowScrollX := JsNum.num 100, windowScrollY := JsNum.num 200,
    query := fun _ => none }

/-- A concrete cache state with one pending window placeholder. -/
def stateA : CacheState :=
  { cached := [], next := [(windowKey, { scrollX := JsNum.nan, scrollY := JsNum.nan })] }

/-- A concrete cache state whose pending map holds the empty selector
(reachable: `getCssSelector` returns `""` for a direct child of `<html>`,
and persisted state is reloaded verbatim). -/
def stateEmptySel : CacheState :=
  { cached := [], next := [([], { scrollX := JsNum.nan, scrollY := JsNum.nan })] }

/-- The `/page1` location of the round-trip property. -/
def page1 : Location :=
  { href := "/page1".data, pathname := "/page1".data, search := [], hash := [] }

/-- Whether a composite cache key would be applied as the window entry for
`locationKey` by the restore loop: its key part (before the first
delimiter occurrence) equals `locationKey` and its selector part is the
window sentinel. -/
def isWindowEntryFor (locationKey ck : JsString) : Bool :=
  match splitOnDelim ck with
  | [] => false
  | key :: restParts =>
    decide (key = locationKey) && decide (restParts.head? = some windowKey)

/-- A concrete environment with window offsets `(5, 7)` and no queryable
elements. -/
def envC : Env :=
  { windowScrollX := JsNum.num 5, windowScrollY := JsNum.num 7,
    query := fun _ => none }

/-- A concrete cache state holding one committed window entry for the
location key `/a`. -/
def stateB : CacheState :=
  { cached := [(compositeKey "/a".data windowKey,
      { scrollX := JsNum.num 5, scrollY := JsNum.num 6 })],
    next := [] }

/-- A DOM element for the selector computation (`helpers.ts`,
`getCssSelector`): a tag name and the list of element children.  A
*located* element is a tree together with a path of child indices; object
identity of siblings is their position, so the
`Array.from(parent.children).indexOf(current)` lookup of the source (which
compares by reference) is the element's own index. -/
inductive DomTree where
  | node (tagName : JsString) (children : List DomTree)

/-- `nodeName` / `tagName` of an element. -/
def DomTree.tag : DomTree → JsString
  | DomTree.node t _ => t

/-- `children` of an element. -/
def DomTree.childList : DomTree → List DomTree
  | DomTree.node _ cs => cs

/-- The element reached from `t` by following a path of child indices. -/
def nodeAt : DomTree → List Nat → Option DomTree
  | t, [] => some t
  | DomTree.node _ cs, i :: p =>
    match cs.get? i with
    | some c => nodeAt c p
    | none => none

/-- The `nodeName` at which the upward walk of `getCssSelector` stops. -/
def htmlTag : JsString := "HTML".data

/-- One recorded level:
`` `${current.tagName}:nth-child(${indexOf(current) + 1})` ``. -/
def cssLevel (current : DomTree) (i : Nat) : JsString :=
  current.tag ++ ":nth-child(".data ++ (Nat.repr (i + 1)).data ++ ")".data

/-- The upward walk of `getCssSelector` (`helpers.ts` lines 4–19), driven
by the element's path given innermost-index-first (`rev`):
`while ((parent = current.parentNode) && parent.nodeName !== 'HTML')`
record the current element's level with `path.unshift` and ascend.  An
empty `rev` means the current node is the tree root, whose `parentNode`
is `null`, ending the loop; a parent tagged `HTML` also ends the loop
(without recording the current level).  Invalid paths (no such child)
cannot arise for a real element and end the walk. -/
def cssWalk (doc : DomTree) : List Nat → List JsString → List JsString
  | [], acc => acc
  | i :: revQ, acc =>
    match nodeAt doc revQ.reverse, nodeAt doc (revQ.reverse ++ [i]) with
    | some parent, some current =>
      if parent.tag = htmlTag then acc
      else cssWalk doc revQ (cssLevel current i :: acc)
    | _, _ => acc

/-- `String.prototype.toLowerCase` on the ASCII output of the walk. -/
def toLowerJs (s : JsString) : JsString := s.map Char.toLower

/-- `Array.prototype.join(sep)`. -/
def joinSep (sep : JsString) : List JsString → JsString
  | [] => []
  | [x] => x
  | x :: xs => x ++ sep ++ joinSep sep xs

/-- `getCssSelector` (`helpers.ts`): walk up from the element at path `p`
under `doc`, join the recorded levels with `" > "`, lowercase the result. -/
def getCssSelector (doc : DomTree) (p : List Nat) : JsString :=
  toLowerJs (joinSep " > ".data (cssWalk doc p.reverse []))

/-- The spec's description of the selector levels, written top-down: for
an element at path `r` below `t`, each level is
`tagName:nth-child(1-based index among the parent's children)`,
outermost level first; `none` when the path leaves the tree. -/
def cssChainSpec : DomTree → List Nat → Option (List JsString)
  | _, [] => some []
  | DomTree.node _ cs, i :: r =>
    match cs.get? i with
    | none => none
    | some c =>
      match cssChainSpec c r with
      | none => none
      | some tail => some (cssLevel c i :: tail)

/-- `useElementScrollRestoration` (`scroll-restoration.ts` lines 360–397):
derive the selector — the attribute selector when a truthy `id` option is
given, else the computed CSS selector of `getElement()`'s result,
returning `undefined` when that is `null`/`undefined` — and return the
`cached` entry under the composite key for the current location.  A pure
read: the cache state is only looked up, never written. -/
def useElementScrollRestoration (getKey : Location → JsString)
    (id : Option JsString) (getElement : Option (DomTree × List Nat))
    (loc : Location) (s : CacheState) : Option ScrollEntry :=
  match id with
  | some i =>
    if i = [] then
      match getElement with
      | none => none
      | some dp =>
        lookupEntry (compositeKey (getKey loc) (getCssSelector dp.1 dp.2)) s.cached
    else
      lookupEntry (compositeKey (getKey loc) (attrSelector i)) s.cached
  | none =>
    match getElement with
    | none => none
    | some dp =>
      lookupEntry (compositeKey (getKey loc) (getCssSelector dp.1 dp.2)) s.cached

/-- A concrete document: `<html><head></head><body><div/><div/></body></html>`. -/
def bodyTree : DomTree :=
  DomTree.node "BODY".data
    [DomTree.node "DIV".data [], DomTree.node "DIV".data []]

/-- The `/list` location of the element-restoration property. -/
def locList : Location :=
  { href := "/list".data, pathname := "/list".data, search := [], hash := [] }

/-- A concrete cache with one committed element entry `(50, 100)` for the
identifier `x` under the `/list` location. -/
def stateList : CacheState :=
  { cached := [(compositeKey "/list".data (attrSelector "x".data),
      { scrollX := JsNum.num 50, scrollY := JsNum.num 100 })],
    next := [] }

/-- A JSON value, as produced by `JSON.parse`.  Numbers are modelled by
their integer part (fractional digits and exponents are consumed but not
represented — all offsets in this development are integers). -/
inductive Jv where
  | jnull
  | jbool (b : Bool)
  | jnum (n : Int)
  | jstr (s : JsString)
  | jarr (elems : List Jv)
  | jobj (fields : List (JsString × Jv))

/-- JSON whitespace. -/
def isWsChar (c : Char) : Bool :=
  decide (c = ' ' ∨ c = '\t' ∨ c = '\n' ∨ c = '\r')

/-- Drop leading JSON whitespace. -/
def skipWs : JsString → JsString
  | [] => []
  | c :: r => if isWsChar c then skipWs r else c :: r

/-- ASCII digit test. -/
def isDigitCh (c : Char) : Bool := decide ('0' ≤ c ∧ c ≤ '9')

/-- A maximal run of digits and the remainder. -/
def takeDigits : JsString → List Char × JsString
  | [] => ([], [])
  | c :: r =>
    if isDigitCh c then
      ((takeDigits r).1.cons c, (takeDigits r).2)
    else ([], c :: r)

/-- Decimal value of a digit run. -/
def digitsToNat (ds : List Char) : Nat :=
  ds.foldl (fun a c => a * 10 + (c.toNat - 48)) 0

/-- The value of a hexadecimal digit, if any. -/
def hexVal (c : Char) : Option Nat :=
  if '0' ≤ c ∧ c ≤ '9' then some (c.toNat - 48)
  else if 'a' ≤ c ∧ c ≤ 'f' then some (10 + c.toNat - 97)
  else if 'A' ≤ c ∧ c ≤ 'F' then some (10 + c.toNat - 65)
  else none

/-- The character denoted by a simple JSON escape. -/
def escChar (c : Char) : Option Char :=
  if c = '"' then some '"'
  else if c = '\\' then some '\\'
  else if c = '/' then some '/'
  else if c = 'b' then some '\x08'
  else if c = 'f' then some '\x0C'
  else if c = 'n' then some '\n'
  else if c = 'r' then some '\r'
  else if c = 't' then some '\t'
  else none

/-- The body of a JSON string after the opening quote: the decoded
characters and the remainder after the closing quote; `none` on an
unterminated string, a bad escape, or a raw control character.  A `\u`
escape outside `Char`'s range decodes to the null character (lone
surrogates are not representable; not exercised here). -/
def parseStringRest : Nat → JsString → Option (JsString × JsString)
  | 0, _ => none
  | _ + 1, [] => none
  | fuel + 1, c :: r =>
    if c = '"' then some ([], r)
    else if c = '\\' then
      match r with
      | [] => none
      | e :: r' =>
        if e = 'u' then
          match r' with
          | h1 :: h2 :: h3 :: h4 :: r'' =>
            match hexVal h1, hexVal h2, hexVal h3, hexVal h4 with
            | some v1, some v2, some v3, some v4 =>
              (parseStringRest fuel r'').map (fun pr =>
                (Char.ofNat (((v1 * 16 + v2) * 16 + v3) * 16 + v4) :: pr.1, pr.2))
            | _, _, _, _ => none
          | _ => none
        else
          match escChar e with
          | some ch =>
            (parseStringRest fuel r').map (fun pr => (ch :: pr.1, pr.2))
          | none => none
    else if c.toNat < 32 then none
    else (parseStringRest fuel r).map (fun pr => (c :: pr.1, pr.2))

/-- A JSON number starting at the given input (JSON grammar: optional
minus; `0` or a nonzero-led digit run; optional fraction and exponent,
both requiring at least one digit).  Returns its integer part. -/
def parseNumberFrom (s : JsString) : Option (Jv × JsString) :=
  match (match s with
    | '-' :: r => (true, r)
    | _ => (false, s)) with
  | (neg, s1) =>
    match s1 with
    | [] => none
    | c :: r =>
      if ¬ isDigitCh c then none
      else
        match (if c = '0' then some ((0 : Nat), r)
          else some (digitsToNat (c :: (takeDigits r).1), (takeDigits r).2)) with
        | none => none
        | some (intPart, s2) =>
          match (match s2 with
            | '.' :: r2 =>
              if (takeDigits r2).1 = [] then none else some (takeDigits r2).2
            | _ => some s2) with
          | none => none
          | some s3 =>
            match (match s3 with
              | e :: r3 =>
                if e = 'e' ∨ e = 'E' then
                  match (match r3 with
                    | sgn :: r4 => if sgn = '+' ∨ sgn = '-' then r4 else r3
                    | [] => r3) with
                  | r5 => if (takeDigits r5).1 = [] then none
                    else some (takeDigits r5).2
                else some s3
              | [] => some s3) with
            | none => none
            | some s4 =>
              some (Jv.jnum (if neg then -(intPart : Int) else (intPart : Int)), s4)

mutual

/-- Recursive-descent `JSON.parse`: one value and the remainder.  The fuel
decreases on every (mutual) call; each call consumes input, so the fuel
supplied by `jsonParse` never runs out on inputs it accepts. -/
def parseVal : Nat → JsString → Option (Jv × JsString)
  | 0, _ => none
  | fuel + 1, s =>
    match skipWs s with
    | 'n' :: 'u' :: 'l' :: 'l' :: r => some (Jv.jnull, r)
    | 't' :: 'r' :: 'u' :: 'e' :: r => some (Jv.jbool true, r)
    | 'f' :: 'a' :: 'l' :: 's' :: 'e' :: r => some (Jv.jbool false, r)
    | '"' :: r => (parseStringRest fuel r).map (fun pr => (Jv.jstr pr.1, pr.2))
    | '[' :: r =>
      (match skipWs r with
        | ']' :: r' => some (Jv.jarr [], r')
        | _ => (parseElements fuel r).map (fun pr => (Jv.jarr pr.1, pr.2)))
    | '\x7b' :: r =>
      (match skipWs r with
        | '\x7d' :: r' => some (Jv.jobj [], r')
        | _ => (parseMembers fuel r).map (fun pr => (Jv.jobj pr.1, pr.2)))
    | c :: r =>
      if c = '-' ∨ isDigitCh c then parseNumberFrom (c :: r) else none
    | [] => none

/-- The comma-separated elements of a non-empty JSON array, up to and
including the closing bracket. -/
def parseElements : Nat → JsString → Option (List Jv × JsString)
  | 0, _ => none
  | fuel + 1, s =>
    match parseVal fuel s with
    | none => none
    | some (v, r) =>
      match skipWs r with
      | ',' :: r' =>
        (parseElements fuel r').map (fun pr => (v :: pr.1, pr.2))
      | ']' :: r' => some ([v], r')
      | _ => none

/-- The comma-separated members of a non-empty JSON object, up to and
including the closing brace. -/
def parseMembers : Nat → JsString → Option (List (JsString × Jv) × JsString)
  | 0, _ => none
  | fuel + 1, s =>
    match skipWs s with
    | '"' :: r =>
      match parseStringRest fuel r with
      | none => none
      | some (key, r1) =>
        match skipWs r1 with
        | ':' :: r2 =>
          match parseVal fuel r2 with
          | none => none
          | some (v, r3) =>
            match skipWs r3 with
            | ',' :: r4 =>
              (parseMembers fuel r4).map (fun pr => ((key, v) :: pr.1, pr.2))
            | '\x7d' :: r4 => some ([(key, v)], r4)
            | _ => none
        | _ => none
    | _ => none

end

/-- `JSON.parse`: parse one value and require only whitespace after it;
`none` models a thrown `SyntaxError`. -/
def jsonParse (s : JsString) : Option Jv :=
  match parseVal (2 * s.length + 2) s with
  | some (v, rest) => if skipWs rest = [] then some v else none
  | none => none

/-- JavaScript falsiness of a parsed value (`null`, `false`, `0`, `""`). -/
def jvFalsy : Jv → Bool
  | Jv.jnull => true
  | Jv.jbool b => !b
  | Jv.jnum n => decide (n = 0)
  | Jv.jstr s => decide (s = [])
  | Jv.jarr _ => false
  | Jv.jobj _ => false

/-- Field lookup in a parsed JSON object. -/
def jfield (k : JsString) : List (JsString × Jv) → Option Jv
  | [] => none
  | p :: fs => if p.1 = k then some p.2 else jfield k fs

/-- A stored scroll offset: a JSON number reads back as that number; a
missing field or any non-number (e.g. the `null` that `JSON.stringify`
writes for `NaN`) behaves as a non-numeric value. -/
def jvToNum : Option Jv → JsNum
  | some (Jv.jnum n) => JsNum.num n
  | _ => JsNum.nan

/-- A parsed `{ scrollX, scrollY }` record. -/
def jvToEntry : Jv → ScrollEntry
  | Jv.jobj fs =>
    { scrollX := jvToNum (jfield "scrollX".data fs),
      scrollY := jvToNum (jfield "scrollY".data fs) }
  | _ => { scrollX := JsNum.nan, scrollY := JsNum.nan }

/-- A parsed entry map. -/
def jvToEntryMap : Option Jv → EntryMap
  | some (Jv.jobj fs) => fs.map (fun p => (p.1, jvToEntry p.2))
  | _ => []

/-- The parsed value used as the `CacheState` (the code performs no
validation; a truthy non-object would be carried as-is and crash on first
field access — not exercised by any claim, modelled as the empty state). -/
def jvToCacheState : Jv → CacheState
  | Jv.jobj fs =>
    { cached := jvToEntryMap (jfield "cached".data fs),
      next := jvToEntryMap (jfield "next".data fs) }
  | _ => emptyState

/-- `createCache` (`scroll-restoration.ts` lines 20–42) in a browser
context, given the string stored under the storage key (`none` when
`getItem` returns `null`):
`JSON.parse(window.sessionStorage.getItem(storageKey) || 'null') || {cached:{}, next:{}}`.
`getItem`'s `null` (and an empty stored string, both falsy) fall back to
the literal `'null'`; a falsy parse result falls back to the default empty
state.  There is no `try`/`catch`: a `SyntaxError` thrown by `JSON.parse`
on corrupt data propagates out of `createCache` (modelled as
`Except.error`). -/
def createCache (stored : Option JsString) : Except Unit CacheState :=
  match jsonParse (match stored with
    | none => "null".data
    | some s => if s = [] then "null".data else s) with
  | none => Except.error ()
  | some v => Except.ok (if jvFalsy v then emptyState else jvToCacheState v)

/-! ## Lemmas about the delimiter scan -/

theorem splitOnDelim_cons_nodelim (c : Char) (rest : JsString)
    (h : ¬ (c = '_' ∧ rest.take 2 = ['_', '_'])) :
    splitOnDelim (c :: rest) = consHead c (splitOnDelim rest) := by
  rw [splitOnDelim.eq_def]
  split
  · rename_i rest' heq
    injection heq with h1 h2
    exact absurd ⟨h1, by rw [h2]; rfl⟩ h
  · rename_i c' rest' hno heq
    injection heq with h1 h2
    subst h1; subst h2; rfl
  · rename_i heq
    exact absurd heq (List.cons_ne_nil c rest)

theorem containsDelim_cons (c : Char) (rest : JsString) :
    containsDelim (c :: rest) =
      if c = '_' ∧ rest.take 2 = ['_', '_'] then true else containsDelim rest := by
  rw [containsDelim.eq_def]
  split
  · rename_i rest' heq
    injection heq with h1 h2
    rw [if_pos ⟨h1, by rw [h2]; rfl⟩]
  · rename_i c' rest' hno heq
    injection heq with h1 h2
    subst h1; subst h2
    rw [if_neg]
    rintro ⟨hc, ht⟩
    subst hc
    match rest, ht with
    | _ :: _ :: rest2, ht =>
      injection ht with e1 ht
      injection ht with e2 _
      exact hno rest2 rfl (by rw [e1, e2])
  · rename_i heq
    exact absurd heq (List.cons_ne_nil c rest)

theorem take_two_append_agree (X : JsString) (r r' : JsString)
    (h : r.take 2 = r'.take 2) : (X ++ r).take 2 = (X ++ r').take 2 := by
  match X with
  | [] => simpa using h
  | [x] =>
    have h1 : r.take 1 = r'.take 1 := by
      have := congrArg (List.take 1) h
      simpa [List.take_take] using this
    simpa [List.take_succ_cons] using h1
  | x :: y :: X' => simp [List.take_succ_cons]

/-- If the three-underscore delimiter occurs nowhere in `A` — not even
overlapping `A`'s right edge (hence the probe `A ++ "__"`) — then splitting
`A ++ delimiter ++ s` cuts exactly at the joined delimiter first. -/
theorem splitOnDelim_append_delim (A s : JsString)
    (hA : containsDelim (A ++ ['_', '_']) = false) :
    splitOnDelim (A ++ delimiter ++ s) = A :: splitOnDelim s := by
  induction A with
  | nil => rfl
  | cons a A' ih =>
    rw [List.cons_append, containsDelim_cons] at hA
    have hcond : ¬ (a = '_' ∧ (A' ++ ['_', '_']).take 2 = ['_', '_']) := by
      intro hc
      rw [if_pos hc] at hA
      simp at hA
    have hA' : containsDelim (A' ++ ['_', '_']) = false := by
      rwa [if_neg hcond] at hA
    have htake : (A' ++ (delimiter ++ s)).take 2 = (A' ++ ['_', '_']).take 2 :=
      take_two_append_agree A' (delimiter ++ s) ['_', '_'] rfl
    have hstep :
        splitOnDelim (a :: (A' ++ (delimiter ++ s))) =
          consHead a (splitOnDelim (A' ++ (delimiter ++ s))) := by
      apply splitOnDelim_cons_nodelim
      intro hc
      exact hcond ⟨hc.1, by rw [← htake]; exact hc.2⟩
    calc splitOnDelim ((a :: A') ++ delimiter ++ s)
        = splitOnDelim (a :: (A' ++ (delimiter ++ s))) := by simp
      _ = consHead a (splitOnDelim (A' ++ (delimiter ++ s))) := hstep
      _ = consHead a (A' :: splitOnDelim s) := by
            rw [show A' ++ (delimiter ++ s) = A' ++ delimiter ++ s by simp, ih hA']
      _ = (a :: A') :: splitOnDelim s := rfl

/-! ## Lemmas about the JS-object operations -/

theorem keysOf_cons (p : JsString × ScrollEntry) (m : EntryMap) :
    keysOf (p :: m) = p.1 :: keysOf m := rfl

theorem containsKeyB_false_head (k : JsString) (p : JsString × ScrollEntry)
    (m : EntryMap) (hc : containsKeyB k (p :: m) = false) :
    p.1 ≠ k ∧ containsKeyB k m = false := by
  by_cases hp : p.1 = k
  · rw [containsKeyB, if_pos hp] at hc
    exact absurd hc (by simp)
  · rw [containsKeyB, if_neg hp] at hc
    exact ⟨hp, hc⟩

theorem lookupEntry_replace_self (k : JsString) (v : ScrollEntry) (m : EntryMap)
    (hc : containsKeyB k m = true) :
    lookupEntry k (replaceEntry k v m) = some v := by
  induction m with
  | nil => simp [containsKeyB] at hc
  | cons p m' ih =>
    by_cases hp : p.1 = k
    · simp [replaceEntry, lookupEntry, hp]
    · rw [containsKeyB, if_neg hp] at hc
      simp [replaceEntry, lookupEntry, hp, ih hc]

theorem lookupEntry_append_single_self (k : JsString) (v : ScrollEntry)
    (m : EntryMap) (hc : containsKeyB k m = false) :
    lookupEntry k (m ++ [(k, v)]) = some v := by
  induction m with
  | nil => simp [lookupEntry]
  | cons p m' ih =>
    rcases containsKeyB_false_head k p m' hc with ⟨hp, hc'⟩
    simpa [lookupEntry, hp] using ih hc'

theorem lookupEntry_insert_self (k : JsString) (v : ScrollEntry) (m : EntryMap) :
    lookupEntry k (insertEntry k v m) = some v := by
  unfold insertEntry
  split
  · rename_i hc
    exact lookupEntry_replace_self k v m hc
  · rename_i hc
    exact lookupEntry_append_single_self k v m (by simpa using hc)

theorem lookupEntry_replace_ne (k k' : JsString) (v : ScrollEntry)
    (m : EntryMap) (h : k' ≠ k) :
    lookupEntry k' (replaceEntry k v m) = lookupEntry k' m := by
  induction m with
  | nil => rfl
  | cons p m' ih =>
    by_cases hp : p.1 = k
    · have h1 : ¬ (k = k') := fun hh => h hh.symm
      have h2 : ¬ (p.1 = k') := by rw [hp]; exact h1
      simp [replaceEntry, hp, lookupEntry, h1, h2, ih]
    · by_cases hp' : p.1 = k'
      · simp [replaceEntry, hp, lookupEntry, hp', h]
      · simp [replaceEntry, hp, lookupEntry, hp', ih]

theorem lookupEntry_append_single_ne (k k' : JsString) (v : ScrollEntry)
    (m : EntryMap) (h : k' ≠ k) :
    lookupEntry k' (m ++ [(k, v)]) = lookupEntry k' m := by
  induction m with
  | nil => simp [lookupEntry, Ne.symm h]
  | cons p m' ih =>
    by_cases hp' : p.1 = k'
    · simp [lookupEntry, hp']
    · simpa [lookupEntry, hp'] using ih

theorem lookupEntry_insert_ne (k k' : JsString) (v : ScrollEntry) (m : EntryMap)
    (h : k' ≠ k) : lookupEntry k' (insertEntry k v m) = lookupEntry k' m := by
  unfold insertEntry
  split
  · exact lookupEntry_replace_ne k k' v m h
  · exact lookupEntry_append_single_ne k k' v m h

theorem lookupEntry_erase_ne (k k' : JsString) (m : EntryMap)
    (h : k' ≠ k) : lookupEntry k' (eraseEntry k m) = lookupEntry k' m := by
  induction m with
  | nil => rfl
  | cons p m' ih =>
    by_cases hp : p.1 = k
    · simpa [eraseEntry, hp, lookupEntry, Ne.symm h] using ih
    · by_cases hp' : p.1 = k'
      · simp [eraseEntry, hp, lookupEntry, hp', h]
      · simp [eraseEntry, hp, lookupEntry, hp', ih]

theorem mem_keysOf_erase (k k' : JsString) (m : EntryMap) :
    k' ∈ keysOf (eraseEntry k m) ↔ k' ∈ keysOf m ∧ k' ≠ k := by
  induction m with
  | nil => simp [keysOf, eraseEntry]
  | cons p m' ih =>
    by_cases hp : p.1 = k
    · rw [eraseEntry, if_pos hp, keysOf_cons, ih, List.mem_cons]
      constructor
      · exact fun hh => ⟨Or.inr hh.1, hh.2⟩
      · rintro ⟨hh | hh, h2⟩
        · exact absurd (hh.trans hp) h2
        · exact ⟨hh, h2⟩
    · rw [eraseEntry, if_neg hp, keysOf_cons, keysOf_cons, List.mem_cons,
        List.mem_cons, ih]
      constructor
      · rintro (hh | ⟨hh, h2⟩)
        · exact ⟨Or.inl hh, fun he => hp (hh.symm.trans he)⟩
        · exact ⟨Or.inr hh, h2⟩
      · rintro ⟨hh | hh, h2⟩
        · exact Or.inl hh
        · exact Or.inr ⟨hh, h2⟩

theorem lookupEntry_of_mem_keysOf (k : JsString) (m : EntryMap)
    (h : k ∈ keysOf m) : ∃ e, lookupEntry k m = some e := by
  induction m with
  | nil => simp [keysOf] at h
  | cons p m' ih =>
    by_cases hp : p.1 = k
    · exact ⟨p.2, by simp [lookupEntry, hp]⟩
    · have h' : k ∈ keysOf m' := by
        rw [keysOf_cons, List.mem_cons] at h
        rcases h with h | h
        · exact absurd h.symm hp
        · exact h
      rcases ih h' with ⟨e, he⟩
      exact ⟨e, by simpa [lookupEntry, hp] using he⟩

theorem lookupEntry_eq_none (k : JsString) (m : EntryMap)
    (h : k ∉ keysOf m) : lookupEntry k m = none := by
  induction m with
  | nil => rfl
  | cons p m' ih =>
    rw [keysOf_cons, List.mem_cons, not_or] at h
    have hp : ¬ p.1 = k := fun hh => h.1 hh.symm
    simpa [lookupEntry, hp] using ih h.2

theorem compositeKey_inj_sel (L s1 s2 : JsString)
    (h : compositeKey L s1 = compositeKey L s2) : s1 = s2 := by
  unfold compositeKey at h
  exact List.append_cancel_left h

/-! ## Lemmas about the save fold -/

theorem save_fold_preserves_cached (env : Env) (locationKey : JsString) :
    ∀ (L : List JsString) (st : CacheState) (k : JsString),
      (∀ sel ∈ L, compositeKey locationKey sel ≠ k) →
      lookupEntry k (L.foldl (saveStep env locationKey) st).cached =
        lookupEntry k st.cached := by
  intro L
  induction L with
  | nil => intro st k _; rfl
  | cons a L' ih =>
    intro st k h
    rw [List.foldl_cons, ih _ _ (fun sel hs => h sel (List.mem_cons_of_mem a hs))]
    unfold saveStep
    cases hl : lookupEntry a st.next with
    | none => rfl
    | some e =>
      exact lookupEntry_insert_ne _ k _ _
        (fun hk => h a (List.mem_cons_self a L') hk.symm)

theorem save_fold_next_subset (env : Env) (locationKey : JsString) :
    ∀ (L : List JsString) (st : CacheState) (k : JsString),
      k ∈ keysOf (L.foldl (saveStep env locationKey) st).next →
      k ∈ keysOf st.next := by
  intro L
  induction L with
  | nil => intro st k h; exact h
  | cons a L' ih =>
    intro st k h
    rw [List.foldl_cons] at h
    have h1 := ih _ _ h
    unfold saveStep at h1
    cases hl : lookupEntry a st.next with
    | none => rwa [hl] at h1
    | some e =>
      rw [hl] at h1
      exact ((mem_keysOf_erase a k st.next).mp h1).1

theorem save_fold_removes (env : Env) (locationKey : JsString) :
    ∀ (L : List JsString) (st : CacheState) (sel : JsString), sel ∈ L →
      sel ∉ keysOf (L.foldl (saveStep env locationKey) st).next := by
  intro L
  induction L with
  | nil => intro st sel h; exact absurd h (List.not_mem_nil sel)
  | cons a L' ih =>
    intro st sel h hmem
    rw [List.foldl_cons] at hmem
    rcases List.mem_cons.mp h with rfl | h'
    · have h1 := save_fold_next_subset env locationKey L' _ _ hmem
      unfold saveStep at h1
      cases hl : lookupEntry sel st.next with
      | none =>
        rw [hl] at h1
        rcases lookupEntry_of_mem_keysOf sel st.next h1 with ⟨e, he⟩
        rw [he] at hl
        exact Option.noConfusion hl
      | some e =>
        rw [hl] at h1
        exact ((mem_keysOf_erase sel sel st.next).mp h1).2 rfl
    · exact ih _ sel h' hmem

theorem save_fold_commits (env : Env) (locationKey : JsString) :
    ∀ (L : List JsString) (st : CacheState) (sel : JsString) (e : ScrollEntry),
      sel ∈ L → L.Nodup → lookupEntry sel st.next = some e →
      lookupEntry (compositeKey locationKey sel)
          (L.foldl (saveStep env locationKey) st).cached =
        some (liveEntry env sel e) := by
  intro L
  induction L with
  | nil => intro st sel e h _ _; exact absurd h (List.not_mem_nil sel)
  | cons a L' ih =>
    intro st sel e h hnd hpend
    have hnd' := (List.nodup_cons.mp hnd).2
    have hanotin := (List.nodup_cons.mp hnd).1
    rw [List.foldl_cons]
    rcases List.mem_cons.mp h with rfl | h'
    · rw [save_fold_preserves_cached env locationKey L' _ _
        (fun sel' hs' hkey => hanotin
          ((compositeKey_inj_sel locationKey sel' sel hkey) ▸ hs'))]
      unfold saveStep
      rw [hpend]
      exact lookupEntry_insert_self _ _ _
    · have hselne : sel ≠ a := fun hh => hanotin (hh ▸ h')
      apply ih _ sel e h' hnd'
      have hnext : (saveStep env locationKey st a).next = eraseEntry a st.next ∨
          (saveStep env locationKey st a).next = st.next := by
        unfold saveStep
        cases hl : lookupEntry a st.next
        · exact Or.inr rfl
        · exact Or.inl rfl
      rcases hnext with hnext | hnext
      · rw [hnext, lookupEntry_erase_ne a sel st.next hselne]
        exact hpend
      · rw [hnext]
        exact hpend

/-! ## Claims C1, C2, C6, C7, C10 -/

/-- C1 (amended): for every selector present in the pending `next` map at
save time (pending keys being unique, as JS object keys are), the save
removes the selector from `next` and writes a `cached` entry under
`locationKey ++ delimiter ++ selector`; the committed entry holds the live
window offsets for the window sentinel, the element's offsets found via
`document.querySelector` (defaulting to `(0,0)` when absent) for any other
non-empty selector — but an empty-string selector is committed with its
pending entry unchanged, no live offset being read (`liveEntry`). -/
theorem c1_save_commits_pending (env : Env) (locationKey : JsString)
    (s : CacheState) (sel : JsString) (e : ScrollEntry)
    (hnd : (keysOf s.next).Nodup) (hmem : sel ∈ keysOf s.next)
    (hpend : lookupEntry sel s.next = some e) :
    sel ∉ keysOf (saveScrollPositions env locationKey s).next ∧
    lookupEntry (compositeKey locationKey sel)
        (saveScrollPositions env locationKey s).cached =
      some (liveEntry env sel e) := by
  constructor
  · exact save_fold_removes env locationKey (keysOf s.next) s sel hmem
  · exact save_fold_commits env locationKey (keysOf s.next) s sel e hmem hnd hpend

/-- C1 witness: a concrete save over a pending window placeholder with live
window offsets `(100, 200)` under key `/p`. -/
theorem c1_save_commits_pending_witness :
    ((keysOf stateA.next).Nodup ∧ windowKey ∈ keysOf stateA.next ∧
      lookupEntry windowKey stateA.next =
        some { scrollX := JsNum.nan, scrollY := JsNum.nan }) ∧
    (windowKey ∉ keysOf (saveScrollPositions envA "/p".data stateA).next ∧
      lookupEntry (compositeKey "/p".data windowKey)
          (saveScrollPositions envA "/p".data stateA).cached =
        some (liveEntry envA windowKey
          { scrollX := JsNum.nan, scrollY := JsNum.nan })) :=
  ⟨⟨by decide, by decide, by decide⟩,
    c1_save_commits_pending envA "/p".data stateA windowKey
      { scrollX := JsNum.nan, scrollY := JsNum.nan }
      (by decide) (by decide) (by decide)⟩

/-- C1 counterexample: with the empty selector pending (and no element
findable in the document), the claim's "defaulting to (0,0) when the
element cannot be found" demands a committed entry `(0,0)`, but the code
commits the untouched `NaN` placeholder: the empty selector matches
neither the window branch nor the truthy-selector branch. -/
theorem c1_counterexample :
    lookupEntry (compositeKey "k".data [])
        (saveScrollPositions envA "k".data stateEmptySel).cached =
      some { scrollX := JsNum.nan, scrollY := JsNum.nan } ∧
    some ({ scrollX := JsNum.nan, scrollY := JsNum.nan } : ScrollEntry) ≠
      some ({ scrollX := JsNum.num 0, scrollY := JsNum.num 0 } : ScrollEntry) := by
  constructor
  · decide
  · decide

/-- C2: round-trip — saving the pending window placeholder with live window
offsets `(100, 200)` under the key derived from `/page1`, then restoring
for the same location, issues exactly one `window.scrollTo` with
`left := 100`, `top := 200`. -/
theorem c2_round_trip :
    (restoreScrollPositions envA (defaultGetKey page1) none
        (saveScrollPositions envA (defaultGetKey page1) stateA)).2 =
      [Effect.windowScrollTo (JsNum.num 100) (JsNum.num 200) none] := by
  decide

/-- C7: after a full save→restore cycle the pending `next` map is empty
(restore unconditionally ends with `cache.set(c => ({ ...c, next: {} }))`). -/
theorem c7_cycle_clears_next (env1 env2 : Env) (k1 k2 : JsString)
    (b : Option ScrollBehavior) (s : CacheState) :
    ((restoreScrollPositions env2 k2 b (saveScrollPositions env1 k1 s)).1).next
      = [] := rfl

/-- C6: when the freshly read location differs from `lastLocation` in
pathname, search or hash, `checkForUrlChange` produces exactly the trace
save-requested (under the key of the still-old `locationRef`), then
`lastLocation` update, then navigate-callback with the old location, then
restore-scheduling for the new location; the resulting cache is the save
performed under the pre-transition location's key. -/
theorem c6_check_for_url_change_ordering (env : Env)
    (getKey : Location → JsString) (current : Location) (s : NavState)
    (h : locationChanged current s.lastLocation = true) :
    (checkForUrlChange env getKey current s).2 =
      [TraceEv.saveRequested (getKey s.locationRef),
        TraceEv.lastLocationSet current,
        TraceEv.navigateCbInvoked s.lastLocation,
        TraceEv.restoreScheduled current] ∧
    (checkForUrlChange env getKey current s).1.cache =
      saveScrollPositions env (getKey s.locationRef) s.cache ∧
    (checkForUrlChange env getKey current s).1.lastLocation = current ∧
    (checkForUrlChange env getKey current s).1.locationRef = current := by
  unfold checkForUrlChange
  rw [if_pos h]
  exact ⟨rfl, rfl, rfl, rfl⟩

/-- C6 witness: a concrete pathname change from `/page1` to `/p2`. -/
theorem c6_check_for_url_change_ordering_witness :
    (locationChanged
        { href := "/p2".data, pathname := "/p2".data, search := [], hash := [] }
        ({ lastLocation := page1, locationRef := page1, cache := stateA,
            dirty := [] } : NavState).lastLocation = true) ∧
    ((checkForUrlChange envA defaultGetKey
        { href := "/p2".data, pathname := "/p2".data, search := [], hash := [] }
        { lastLocation := page1, locationRef := page1, cache := stateA,
          dirty := [] }).2 =
      [TraceEv.saveRequested (defaultGetKey page1),
        TraceEv.lastLocationSet
          { href := "/p2".data, pathname := "/p2".data, search := [], hash := [] },
        TraceEv.navigateCbInvoked page1,
        TraceEv.restoreScheduled
          { href := "/p2".data, pathname := "/p2".data, search := [], hash := [] }] ∧
      (checkForUrlChange envA defaultGetKey
          { href := "/p2".data, pathname := "/p2".data, search := [], hash := [] }
          { lastLocation := page1, locationRef := page1, cache := stateA,
            dirty := [] }).1.cache =
        saveScrollPositions envA (defaultGetKey page1) stateA ∧
      (checkForUrlChange envA defaultGetKey
          { href := "/p2".data, pathname := "/p2".data, search := [], hash := [] }
          { lastLocation := page1, locationRef := page1, cache := stateA,
            dirty := [] }).1.lastLocation =
        { href := "/p2".data, pathname := "/p2".data, search := [], hash := [] } ∧
      (checkForUrlChange envA defaultGetKey
          { href := "/p2".data, pathname := "/p2".data, search := [], hash := [] }
          { lastLocation := page1, locationRef := page1, cache := stateA,
            dirty := [] }).1.locationRef =
        { href := "/p2".data, pathname := "/p2".data, search := [], hash := [] }) :=
  ⟨by decide,
    c6_check_for_url_change_ordering envA defaultGetKey
      { href := "/p2".data, pathname := "/p2".data, search := [], hash := [] }
      { lastLocation := page1, locationRef := page1, cache := stateA,
        dirty := [] }
      (by decide)⟩

/-- C10: a restore is a frame on the committed map — it leaves `cached`
untouched, clears `next`, resets the per-cycle dirty set, and leaves the
location references alone; only scroll effects are emitted. -/
theorem c10_restore_frame (env : Env) (getKey : Location → JsString)
    (b : Option ScrollBehavior) (s : NavState) :
    (handleScrollRestore env getKey b s).1.cache.cached = s.cache.cached ∧
    (handleScrollRestore env getKey b s).1.cache.next = [] ∧
    (handleScrollRestore env getKey b s).1.dirty = [] ∧
    (handleScrollRestore env getKey b s).1.lastLocation = s.lastLocation ∧
    (handleScrollRestore env getKey b s).1.locationRef = s.locationRef :=
  ⟨rfl, rfl, rfl, rfl, rfl⟩

/-! ## Claims C3 and C4: the restore scan -/

theorem restoreStep_snd_false (env : Env) (locationKey : JsString)
    (b : Option ScrollBehavior) (es : List Effect) (p : JsString × ScrollEntry)
    (h : isWindowEntryFor locationKey p.1 = false) :
    (restoreStep env locationKey b (es, false) p).2 = false := by
  unfold restoreStep
  unfold isWindowEntryFor at h
  cases hsp : splitOnDelim p.1 with
  | nil => rfl
  | cons key restParts =>
    rw [hsp] at h
    dsimp only at h ⊢
    by_cases hk : key = locationKey
    · rw [if_pos hk]
      by_cases hw : restParts.head? = some windowKey
      · simp [hk, hw] at h
      · rw [if_neg hw]
        cases hhd : restParts.head? with
        | none => rfl
        | some sel =>
          dsimp only
          by_cases hsel : sel = []
          · rw [if_pos hsel]
          · rw [if_neg hsel]
            cases env.query sel <;> rfl
    · rw [if_neg hk]

theorem restore_fold_flag_false (env : Env) (locationKey : JsString)
    (b : Option ScrollBehavior) :
    ∀ (l : EntryMap) (es : List Effect),
      (∀ p ∈ l, isWindowEntryFor locationKey p.1 = false) →
      (l.foldl (restoreStep env locationKey b) (es, false)).2 = false := by
  intro l
  induction l with
  | nil => intro es _; rfl
  | cons p l' ih =>
    intro es h
    rw [List.foldl_cons]
    have h2 := restoreStep_snd_false env locationKey b es p
      (h p (List.mem_cons_self p l'))
    rcases hr : restoreStep env locationKey b (es, false) p with ⟨es2, flag2⟩
    rw [hr] at h2
    rw [show flag2 = false from h2]
    exact ih es2 (fun q hq => h q (List.mem_cons_of_mem p hq))

/-- C3: restoring for a location key for which no `cached` entry is a
window entry ends with the explicit scroll-to-origin call
`window.scrollTo(0, 0)` as its last emitted effect. -/
theorem c3_restore_fallback_origin (env : Env) (locationKey : JsString)
    (b : Option ScrollBehavior) (s : CacheState)
    (h : ∀ p ∈ s.cached, isWindowEntryFor locationKey p.1 = false) :
    ((restoreScrollPositions env locationKey b s).2).getLast? =
      some (Effect.windowScrollTo (JsNum.num 0) (JsNum.num 0) none) := by
  simp only [restoreScrollPositions]
  rw [restore_fold_flag_false env locationKey b s.cached [] h]
  simp only [Bool.false_eq_true, if_false]
  exact List.getLast?_concat _

/-- C3 witness: restoring for `/b` while only a `/a` window entry is
cached falls back to the origin call. -/
theorem c3_restore_fallback_origin_witness :
    (∀ p ∈ stateB.cached, isWindowEntryFor "/b".data p.1 = false) ∧
    ((restoreScrollPositions envC "/b".data none stateB).2).getLast? =
      some (Effect.windowScrollTo (JsNum.num 0) (JsNum.num 0) none) :=
  ⟨by decide, c3_restore_fallback_origin envC "/b".data none stateB (by decide)⟩

theorem restoreStep_skip_other_key (env : Env) (A B sel : JsString)
    (e : ScrollEntry) (b : Option ScrollBehavior)
    (hA : containsDelim (A ++ ['_', '_']) = false) (hAB : A ≠ B) :
    ∀ acc, restoreStep env B b acc (compositeKey A sel, e) = acc := by
  intro acc
  unfold restoreStep
  have hsp : splitOnDelim (compositeKey A sel, e).1 = A :: splitOnDelim sel := by
    unfold compositeKey
    exact splitOnDelim_append_delim A sel hA
  rw [hsp]
  dsimp only
  rw [if_neg hAB]

/-- C4 (amended): restoring for location key `B` never applies a cached
entry committed under location key `A` when `A ≠ B` and the delimiter does
not occur in `A`, nor overlapping `A`'s right edge (i.e. `A` neither
contains `___` nor ends in one or two underscores): the restore's effect
trace is unchanged when the entry is removed from `cached`.  Without the
delimiter proviso the property fails, see the counterexample. -/
theorem c4_key_isolation (env : Env) (A B sel : JsString) (e : ScrollEntry)
    (pre post n n' : EntryMap) (b : Option ScrollBehavior)
    (hA : containsDelim (A ++ ['_', '_']) = false) (hAB : A ≠ B) :
    (restoreScrollPositions env B b
        { cached := pre ++ (compositeKey A sel, e) :: post, next := n }).2 =
    (restoreScrollPositions env B b
        { cached := pre ++ post, next := n' }).2 := by
  simp only [restoreScrollPositions]
  rw [List.foldl_append, List.foldl_append, List.foldl_cons,
    restoreStep_skip_other_key env A B sel e b hA hAB]

/-- C4 witness: with `A = "a"` (delimiter-free) and `B = "b"`, removing the
`A`-saved window entry does not change the effects of a restore for `B`. -/
theorem c4_key_isolation_witness :
    (containsDelim ("a".data ++ ['_', '_']) = false ∧ "a".data ≠ "b".data) ∧
    (restoreScrollPositions envC "b".data none
        { cached := [] ++ (compositeKey "a".data windowKey,
            { scrollX := JsNum.num 9, scrollY := JsNum.num 9 }) :: [],
          next := [] }).2 =
    (restoreScrollPositions envC "b".data none
        { cached := [] ++ [], next := [] }).2 :=
  ⟨⟨by decide, by decide⟩,
    c4_key_isolation envC "a".data "b".data windowKey
      { scrollX := JsNum.num 9, scrollY := JsNum.num 9 }
      [] [] [] [] none (by decide) (by decide)⟩

/-- C4 counterexample: the location keys `A = "x___window"` and `B = "x"`
are distinct, yet after saving the pending window offsets `(5, 7)` under
`A`, a restore for `B` applies that very entry (the composite key
`x___window___window` splits as `["x", "window", "window"]`), issuing
`window.scrollTo` with `A`'s offsets instead of the origin fallback. -/
theorem c4_counterexample :
    "x___window".data ≠ "x".data ∧
    (restoreScrollPositions envC "x".data none
        (saveScrollPositions envC "x___window".data stateA)).2 =
      [Effect.windowScrollTo (JsNum.num 5) (JsNum.num 7) none] := by
  constructor
  · decide
  · decide

/-! ## Claims C8 and C9: selector computation and the element query -/

theorem cssChainSpec_nil (t : DomTree) : cssChainSpec t [] = some [] := by
  cases t
  rfl

theorem nodeAt_nil (t : DomTree) : nodeAt t [] = some t := by
  cases t
  rfl

theorem nodeAt_one (t : DomTree) (i : Nat) :
    nodeAt t [i] = t.childList.get? i := by
  cases t with
  | node tn cs =>
    show (match cs.get? i with
      | some c => nodeAt c []
      | none => none) = cs.get? i
    cases cs.get? i with
    | none => rfl
    | some c =>
      show nodeAt c [] = some c
      exact nodeAt_nil c

theorem nodeAt_snoc (q : List Nat) :
    ∀ (t : DomTree) (i : Nat),
      nodeAt t (q ++ [i]) = (nodeAt t q).bind (fun n => n.childList.get? i) := by
  induction q with
  | nil =>
    intro t i
    rw [List.nil_append, nodeAt_one, nodeAt_nil, Option.some_bind]
  | cons a q' ih =>
    intro t i
    cases t with
    | node tn cs =>
      show nodeAt (DomTree.node tn cs) (a :: (q' ++ [i])) = _
      unfold nodeAt
      cases cs.get? a with
      | none => rfl
      | some c => exact ih c i

theorem cssChainSpec_snoc (q : List Nat) :
    ∀ (t : DomTree) (i : Nat) (es : List JsString),
      cssChainSpec t (q ++ [i]) = some es →
      ∃ es' n c, cssChainSpec t q = some es' ∧ nodeAt t q = some n ∧
        n.childList.get? i = some c ∧ es = es' ++ [cssLevel c i] := by
  induction q with
  | nil =>
    intro t i es h
    cases t with
    | node tn cs =>
      rw [List.nil_append] at h
      unfold cssChainSpec at h
      cases hci : cs.get? i with
      | none => rw [hci] at h; exact absurd h (by simp)
      | some c =>
        rw [hci] at h
        dsimp only at h
        rw [cssChainSpec_nil] at h
        dsimp only at h
        injection h with h
        exact ⟨[], DomTree.node tn cs, c, rfl, rfl, hci, h.symm⟩
  | cons a q' ih =>
    intro t i es h
    cases t with
    | node tn cs =>
      rw [List.cons_append] at h
      unfold cssChainSpec at h
      cases hca : cs.get? a with
      | none => rw [hca] at h; exact absurd h (by simp)
      | some c0 =>
        rw [hca] at h
        dsimp only at h
        cases hct : cssChainSpec c0 (q' ++ [i]) with
        | none => rw [hct] at h; exact absurd h (by simp)
        | some tail =>
          rw [hct] at h
          dsimp only at h
          injection h with h
          rcases ih c0 i tail hct with ⟨es'', n, c, h1, h2, h3, h4⟩
          refine ⟨cssLevel c0 a :: es'', n, c, ?_, ?_, h3, ?_⟩
          · unfold cssChainSpec
            rw [hca]
            dsimp only
            rw [h1]
          · show nodeAt (DomTree.node tn cs) (a :: q') = some n
            unfold nodeAt
            rw [hca]
            exact h2
          · rw [← h, h4, List.cons_append]

theorem nodeAt_doc_step (dt : JsString) (hcs : List DomTree) (j : Nat)
    (broot : DomTree) (hj : hcs.get? j = some broot) (q : List Nat) :
    nodeAt (DomTree.node dt [DomTree.node htmlTag hcs]) (0 :: j :: q) =
      nodeAt broot q := by
  show nodeAt (DomTree.node htmlTag hcs) (j :: q) = nodeAt broot q
  rw [show nodeAt (DomTree.node htmlTag hcs) (j :: q) =
      (match hcs.get? j with
        | some c => nodeAt c q
        | none => none) from rfl]
  rw [hj]

theorem cssWalk_spec (dt : JsString) (hcs : List DomTree) (j : Nat)
    (broot : DomTree) (hj : hcs.get? j = some broot) :
    ∀ (r : List Nat) (es : List JsString) (acc : List JsString),
      cssChainSpec broot r = some es →
      (∀ m, m < r.length →
        (nodeAt broot (r.take m)).map DomTree.tag ≠ some htmlTag) →
      cssWalk (DomTree.node dt [DomTree.node htmlTag hcs])
          (r.reverse ++ [j, 0]) acc = es ++ acc := by
  intro r
  induction r using List.reverseRecOn with
  | nil =>
    intro es acc hspec _
    rw [cssChainSpec_nil] at hspec
    have hes : es = [] := by
      injection hspec with h
      exact h.symm
    subst hes
    rw [List.reverse_nil, List.nil_append]
    show cssWalk _ (j :: [0]) acc = acc
    unfold cssWalk
    have h0 : nodeAt (DomTree.node dt [DomTree.node htmlTag hcs])
        ([0] : List Nat).reverse = some (DomTree.node htmlTag hcs) := rfl
    have h1 : nodeAt (DomTree.node dt [DomTree.node htmlTag hcs])
        (([0] : List Nat).reverse ++ [j]) = some broot := by
      show nodeAt (DomTree.node dt [DomTree.node htmlTag hcs]) [0, j] = some broot
      show nodeAt (DomTree.node htmlTag hcs) [j] = some broot
      rw [nodeAt_one]
      exact hj
    rw [h0, h1]
    dsimp only
    rw [if_pos (show (DomTree.node htmlTag hcs).tag = htmlTag from rfl)]
  | append_singleton r' i ih =>
    intro es acc hspec hnh
    rcases cssChainSpec_snoc r' broot i es hspec with ⟨es', n, c, h1, h2, h3, h4⟩
    have htag : n.tag ≠ htmlTag := by
      intro hh
      apply hnh r'.length (by simp)
      rw [List.take_left, h2, Option.map_some']
      rw [hh]
    rw [List.reverse_append, List.reverse_singleton, List.singleton_append,
      List.cons_append]
    show cssWalk _ (i :: (r'.reverse ++ [j, 0])) acc = es ++ acc
    unfold cssWalk
    have hrev : (r'.reverse ++ [j, 0]).reverse = 0 :: j :: r' := by
      simp
    rw [hrev]
    have hparent : nodeAt (DomTree.node dt [DomTree.node htmlTag hcs])
        (0 :: j :: r') = some n := by
      rw [nodeAt_doc_step dt hcs j broot hj, h2]
    have hcur : nodeAt (DomTree.node dt [DomTree.node htmlTag hcs])
        ((0 :: j :: r') ++ [i]) = some c := by
      rw [show (0 :: j :: r') ++ [i] = 0 :: j :: (r' ++ [i]) by simp]
      rw [nodeAt_doc_step dt hcs j broot hj, nodeAt_snoc, h2, Option.some_bind, h3]
    rw [hparent, hcur]
    dsimp only
    rw [if_neg htag]
    rw [ih es' (cssLevel c i :: acc) h1 ?hnh']
    · rw [h4, List.append_assoc, List.singleton_append]
    case hnh' =>
      intro m hm
      have hm' : m < (r' ++ [i]).length := by
        rw [List.length_append]
        omega
      have := hnh m hm'
      rwa [List.take_append_of_le_length (by omega)] at this

/-- C9: `getCssSelector` of an element strictly below a child of the
`HTML` root (no nested `HTML` tags along the way) is the lowercased
`" > "`-join of the per-level strings `tagName:nth-child(i)` described by
the spec (`cssChainSpec`), where `i` is the element's 1-based position
among its parent's children; the walk stops at — and excludes — the level
whose parent is the `HTML` document root.  Determinism is inherent: the
computation is a function of the tree and the element's position. -/
theorem c9_get_css_selector (dt : JsString) (hcs : List DomTree) (j : Nat)
    (broot : DomTree) (r : List Nat) (es : List JsString)
    (hj : hcs.get? j = some broot)
    (hspec : cssChainSpec broot r = some es)
    (hnh : ∀ m, m < r.length →
      (nodeAt broot (r.take m)).map DomTree.tag ≠ some htmlTag) :
    getCssSelector (DomTree.node dt [DomTree.node htmlTag hcs]) (0 :: j :: r) =
      toLowerJs (joinSep " > ".data es) := by
  unfold getCssSelector
  rw [show (0 :: j :: r).reverse = r.reverse ++ [j, 0] by simp]
  rw [cssWalk_spec dt hcs j broot hj r es [] hspec hnh, List.append_nil]

/-- C9 witness: the second `<div>` of
`<html><head/><body><div/><div/></body></html>` gets the selector
`div:nth-child(2)`. -/
theorem c9_get_css_selector_witness :
    (([DomTree.node "HEAD".data [], bodyTree].get? 1 = some bodyTree) ∧
      cssChainSpec bodyTree [1] = some ["DIV:nth-child(2)".data] ∧
      (∀ m, m < ([1] : List Nat).length →
        (nodeAt bodyTree (([1] : List Nat).take m)).map DomTree.tag ≠
          some htmlTag)) ∧
    getCssSelector
        (DomTree.node "#document".data
          [DomTree.node htmlTag [DomTree.node "HEAD".data [], bodyTree]])
        [0, 1, 1] =
      toLowerJs (joinSep " > ".data ["DIV:nth-child(2)".data]) :=
  ⟨⟨rfl, rfl, by decide⟩,
    c9_get_css_selector "#document".data [DomTree.node "HEAD".data [], bodyTree]
      1 bodyTree [1] ["DIV:nth-child(2)".data]
      rfl rfl (by decide)⟩

/-- C8: the element query is a pure read of `cached` (its type returns only
the looked-up entry; no state is produced): for an identifier whose
derived composite key has a committed entry, it returns that entry, and
for an identifier whose derived composite key has none, it returns
`undefined`. -/
theorem c8_element_query (getKey : Location → JsString) (loc : Location)
    (s : CacheState) (id1 id2 : JsString) (e : ScrollEntry)
    (h1 : id1 ≠ []) (h2 : id2 ≠ [])
    (hsaved : lookupEntry (compositeKey (getKey loc) (attrSelector id1))
      s.cached = some e)
    (hnever : lookupEntry (compositeKey (getKey loc) (attrSelector id2))
      s.cached = none) :
    useElementScrollRestoration getKey (some id1) none loc s = some e ∧
    useElementScrollRestoration getKey (some id2) none loc s = none := by
  constructor
  · unfold useElementScrollRestoration
    dsimp only
    rw [if_neg h1]
    exact hsaved
  · unfold useElementScrollRestoration
    dsimp only
    rw [if_neg h2]
    exact hnever

/-- C8 witness: identifier `x` saved as `(50, 100)` under `/list` is
returned; identifier `y`, never saved, yields `undefined`. -/
theorem c8_element_query_witness :
    ("x".data ≠ ([] : JsString) ∧ "y".data ≠ ([] : JsString) ∧
      lookupEntry (compositeKey (defaultGetKey locList) (attrSelector "x".data))
          stateList.cached =
        some { scrollX := JsNum.num 50, scrollY := JsNum.num 100 } ∧
      lookupEntry (compositeKey (defaultGetKey locList) (attrSelector "y".data))
          stateList.cached = none) ∧
    (useElementScrollRestoration defaultGetKey (some "x".data) none locList
        stateList =
      some { scrollX := JsNum.num 50, scrollY := JsNum.num 100 } ∧
    useElementScrollRestoration defaultGetKey (some "y".data) none locList
        stateList = none) :=
  ⟨⟨by decide, by decide, by decide, by decide⟩,
    c8_element_query defaultGetKey locList stateList "x".data "y".data
      { scrollX := JsNum.num 50, scrollY := JsNum.num 100 }
      (by decide) (by decide) (by decide) (by decide)⟩

/-! ## Claim C5: cache loading -/

/-- C5 (code bug): loading is *not* exception-safe on corrupt data.
Missing data (`getItem` returning `null`) and the stored literal `"null"`
do yield the default empty state, but a stored string that is not valid
JSON — here `"{"` — makes `JSON.parse` throw a `SyntaxError` that
`createCache` does not catch, contradicting the spec's "corrupt JSON must
not throw, it must fall back to default". -/
theorem c5_corrupt_data_throws :
    createCache (some ['\x7b']) = Except.error () ∧
    createCache none = Except.ok emptyState ∧
    createCache (some "null".data) = Except.ok emptyState :=
  ⟨rfl, rfl, rfl⟩
